import Mathlib

/-!
# Verification of the pymclevel infinite-world chunk store

Shallow embedding of `src/box.py` and `src/mclevel.py` (classes `BoundingBox`,
`MCLevel`, `InfdevChunk`, `MCInfdevOldLevel`) together with proofs about the
chunk store, the nibble packing scheme, the directory hashing, the region
slice iterator, the height-map generator and the light relaxation passes.

Conventions of the embedding:
* numpy `uint8` arrays become functions `Nat → Nat → Nat → Nat` ("Arr3",
  indexed `[x][z][y]` like the source) whose values are bytes (`< 256`)
  wherever the source stores bytes; arithmetic that can overflow a byte is
  written with an explicit `% 256`;
* Python integers become `Int`; Python's `>> 4` on a possibly negative int is
  floor division `Int.fdiv · 16`, Python's `%` is `Int.emod` (both agree with
  Python's semantics for a positive modulus);
* `x & 0xf` on a byte is `% 16`, `x >> 4` on a byte is `/ 16`;
* mutation becomes explicit state passing; Python exceptions become
  `Except`/`Option` results.

External collaborators that are not part of the two source files (the `nbt`
tag codec, gzip, and the `materials` tables) enter as parameters: a parse
function `Blob → Option RootTag` and light tables `Nat → Nat`.
-/

namespace PyMCLevel

/-- A 3-d byte array as stored in a chunk, indexed `[x][z][y]`. -/
def Arr3 : Type := Nat → Nat → Nat → Nat

/-- A 2-d byte array (the height map), indexed `[z][x]` as in the source. -/
def Arr2 : Type := Nat → Nat → Nat

/-- Raw file bytes. -/
def Blob : Type := List Nat

/-- Pointwise update of a 3-d array at one cell. -/
def update3 (a : Arr3) (x z y v : Nat) : Arr3 :=
  fun x' z' y' => if x' = x ∧ z' = z ∧ y' = y then v else a x' z' y'

/-! ## Nibble packing (`InfdevChunk.unpackChunkData` / `packChunkData`)

Source (src/mclevel.py:1297-1323): the packed array has shape `(16,16,64)`;
`unpackedData[...,0] = b & 0xf` and `unpackedData[...,1] = b >> 4`, reshaped
to `(16,16,128)`, so cell `y = 2k` is the low nibble of packed byte `k` and
cell `y = 2k+1` its high nibble.  Packing does `hi <<= 4; hi |= lo` in uint8
arithmetic and keeps the packed byte. -/

/-- `unpackChunkData` on one nibble field: packed `(16,16,64)` byte array to
unpacked `(16,16,128)` array, low nibble at even `y`, high nibble above it. -/
def unpackChunkData (d : Arr3) : Arr3 :=
  fun x z y => if y % 2 = 0 then d x z (y / 2) % 16 else d x z (y / 2) / 16

/-- `packChunkData` on one nibble field: unpacked `(16,16,128)` array back to
the packed `(16,16,64)` form; `<<< 4` wraps at a byte like the uint8 array. -/
def packChunkData (u : Arr3) : Arr3 :=
  fun x z k => (u x z (2 * k + 1) <<< 4) % 256 ||| u x z (2 * k)

/-! ## Directory hashing (`MCInfdevOldLevel.dirhash` / `decbase36`)

Source (src/mclevel.py:1506-1552).  Strings are modelled as `List Char`. -/

/-- The 36-symbol alphabet `"0123456789abcdefghijklmnopqrstuvwxyz"`. -/
def base36alphabet : List Char :=
  "0123456789abcdefghijklmnopqrstuvwxyz".toList

/-- Residue part of `dirhash`: the label for `m = n % 64` with `0 ≤ m < 64`. -/
def dirhashNat (m : Nat) : List Char :=
  if 36 ≤ m then '1' :: [base36alphabet.getD (m - 36) '0']
  else [base36alphabet.getD m '0']

/-- `dirhash(n)`: reduce mod 64 (Python `%`, always non-negative) and label. -/
def dirhash (n : Int) : List Char :=
  dirhashNat (n % 64).toNat

/-- The accumulator loop of `decbase36`: `n = n*36 + index(c)`, stopping at
the first character that is not in the alphabet (the `break`). -/
def decbase36Loop : List Char → Nat → Nat
  | [], n => n
  | c :: rest, n =>
    match base36alphabet.findIdx? (fun a => a = c) with
    | none => n
    | some i => decbase36Loop rest (n * 36 + i)

/-- `decbase36(s)`: optional leading `'-'`, then the base-36 accumulator. -/
def decbase36 (s : List Char) : Int :=
  match s with
  | '-' :: rest => -(decbase36Loop rest 0 : Int)
  | _ => (decbase36Loop s 0 : Int)

/-! ## `BoundingBox` (src/box.py)

`origin` and `size` are three-component integer vectors; we name the
components explicitly.  Only the max-edge setters clamp. -/

structure BoundingBox where
  originX : Int
  originY : Int
  originZ : Int
  sizeX : Int
  sizeY : Int
  sizeZ : Int

namespace BoundingBox

def getMinx (b : BoundingBox) : Int := b.originX
def getMiny (b : BoundingBox) : Int := b.originY
def getMinz (b : BoundingBox) : Int := b.originZ

def getMaxx (b : BoundingBox) : Int := b.originX + b.sizeX
def getMaxy (b : BoundingBox) : Int := b.originY + b.sizeY
def getMaxz (b : BoundingBox) : Int := b.originZ + b.sizeZ

/-- `setMinx`: `size[0] -= x - origin[0]; origin[0] = x` (no clamping). -/
def setMinx (b : BoundingBox) (x : Int) : BoundingBox :=
  { b with sizeX := b.sizeX - (x - b.originX), originX := x }

def setMiny (b : BoundingBox) (y : Int) : BoundingBox :=
  { b with sizeY := b.sizeY - (y - b.originY), originY := y }

def setMinz (b : BoundingBox) (z : Int) : BoundingBox :=
  { b with sizeZ := b.sizeZ - (z - b.originZ), originZ := z }

/-- `setMaxx`: clamps `x` up to `origin[0]` first, then
`size[0] = x - origin[0]`. -/
def setMaxx (b : BoundingBox) (x : Int) : BoundingBox :=
  { b with sizeX := (if x < b.originX then b.originX else x) - b.originX }

def setMaxy (b : BoundingBox) (y : Int) : BoundingBox :=
  { b with sizeY := (if y < b.originY then b.originY else y) - b.originY }

def setMaxz (b : BoundingBox) (z : Int) : BoundingBox :=
  { b with sizeZ := (if z < b.originZ then b.originZ else z) - b.originZ }

/-- `mincx`: `origin[0] >> 4` (floor shift). -/
def getMincx (b : BoundingBox) : Int := (b.originX).fdiv 16
/-- `mincz`: `origin[2] >> 4`. -/
def getMincz (b : BoundingBox) : Int := (b.originZ).fdiv 16
/-- `maxcx`: `((origin[0]+size[0]-1) >> 4) + 1`. -/
def getMaxcx (b : BoundingBox) : Int := (b.originX + b.sizeX - 1).fdiv 16 + 1
/-- `maxcz`: `((origin[2]+size[2]-1) >> 4) + 1`. -/
def getMaxcz (b : BoundingBox) : Int := (b.originZ + b.sizeZ - 1).fdiv 16 + 1

end BoundingBox

/-! ## Chunks and the chunk store

`InfdevChunk` (src/mclevel.py:1106-1375) holds an optional cached compressed
blob (`compressedTag`), an optional materialized tag tree (`root_tag`) and
three flags.  The in-memory tag tree is reduced to the arrays the verified
operations touch. -/

/-- The materialized (`shapeChunkData`-ed) tag tree of a chunk: the five
arrays of `Level`.  `Data`, `BlockLight` and `SkyLight` are `(16,16,64)`
packed-nibble arrays on disk and `(16,16,128)` unpacked arrays in memory;
this structure stores whatever form the lifecycle currently holds. -/
structure RootTag where
  Blocks : Arr3
  Data : Arr3
  BlockLight : Arr3
  SkyLight : Arr3
  HeightMap : Arr2

/-- `unpackChunkData` applied to the three nibble fields of the tag tree
(src/mclevel.py:1297-1310). -/
def unpackRoot (rt : RootTag) : RootTag :=
  { rt with
    Data := unpackChunkData rt.Data
    BlockLight := unpackChunkData rt.BlockLight
    SkyLight := unpackChunkData rt.SkyLight }

/-- The mutable state of one `InfdevChunk` (its identifying coordinate is the
key it is stored under in the world map). -/
structure InfChunk where
  compressedTag : Option Blob
  root_tag : Option RootTag
  dirty : Bool
  needsCompression : Bool
  needsLighting : Bool

/-- A fresh `InfdevChunk.__init__` result (`create = False`). -/
def InfChunk.fresh : InfChunk :=
  { compressedTag := none, root_tag := none,
    dirty := false, needsCompression := false, needsLighting := false }

/-- `MCLevel.decompress` (src/mclevel.py:321-348): no-op when materialized or
when no blob is cached; otherwise gunzip + `nbt.load` + `shapeChunkData`
(abstracted into `parse`, which returns `none` when the tag tree cannot be
built — the caught `IOError`/`TypeError` of `nbt.load`; the `KeyError` of
`shapeChunkData` likewise prints and returns, leaving the chunk unusable),
then `unpackChunkData`.  On a parse failure the method prints and returns;
the `self.world.malformedChunk(...)` call is commented out in the source, so
the store is left untouched. -/
def decompress (parse : Blob → Option RootTag) (ch : InfChunk) : InfChunk :=
  if ch.root_tag.isSome then ch
  else
    match ch.compressedTag with
    | none => ch
    | some blob =>
      match parse blob with
      | none => ch
      | some rt => { ch with root_tag := some (unpackRoot rt) }

/-- `InfdevChunk.load` (src/mclevel.py:1220-1227): read the chunk file into
`compressedTag` if it is not cached (`fileData` is the file's content,
`none` when the file is missing, in which case the read raises `IOError`,
modelled as `none`); then `decompress` if not yet materialized. -/
def load (parse : Blob → Option RootTag) (fileData : Option Blob)
    (ch : InfChunk) : Option InfChunk :=
  match ch.compressedTag with
  | none =>
    match fileData with
    | none => none
    | some b =>
      let ch1 : InfChunk := { ch with compressedTag := some b }
      some (if ch1.root_tag.isNone then decompress parse ch1 else ch1)
  | some _ =>
    some (if ch.root_tag.isNone then decompress parse ch else ch)

/-- Chunk-store state of `MCInfdevOldLevel`: the `_presentChunks` map as an
association list, and the on-disk chunk files keyed by chunk coordinate
(the path `chunkFilename(cx,cz)` is determined by the coordinate). -/
structure WorldState where
  presentChunks : List ((Int × Int) × InfChunk)
  files : List ((Int × Int) × Blob)

/-- `(cx,cz) in self._presentChunks` / `self._presentChunks[cx,cz]`. -/
def lookupChunk (w : WorldState) (c : Int × Int) : Option InfChunk :=
  (w.presentChunks.find? (fun p => p.1 = c)).map (·.2)

/-- `MCInfdevOldLevel.containsChunk` (src/mclevel.py:2222-2223). -/
def containsChunk (w : WorldState) (c : Int × Int) : Bool :=
  (lookupChunk w c).isSome

/-- Content of the chunk's backing file, if it exists. -/
def lookupFile (w : WorldState) (c : Int × Int) : Option Blob :=
  (w.files.find? (fun p => p.1 = c)).map (·.2)

/-- Store a new chunk value under an existing key (the source mutates the
chunk object held in the dict in place). -/
def updateChunk (w : WorldState) (c : Int × Int) (ch : InfChunk) : WorldState :=
  { w with presentChunks :=
      w.presentChunks.map (fun p => if p.1 = c then (c, ch) else p) }

/-- Error taxonomy of the store (src/mclevel.py:1089-1090 plus a raw
`IOError` escaping `load` when the backing file is unreadable). -/
inductive ChunkError where
  | ChunkNotPresent : ChunkError
  | ChunkMalformed : ChunkError
  | IOError : ChunkError
  | TypeError : ChunkError
deriving DecidableEq, Repr

/-- `MCInfdevOldLevel.getChunk` (src/mclevel.py:1682-1692): raise
`ChunkNotPresent` for an unknown coordinate; otherwise `c.load()`; raise
`ChunkMalformed` if the coordinate vanished from `_presentChunks` during the
load (which, with the `malformedChunk` call commented out of `decompress`,
never happens); return the chunk. -/
def getChunk (parse : Blob → Option RootTag) (w : WorldState) (c : Int × Int) :
    Except ChunkError (InfChunk × WorldState) :=
  match lookupChunk w c with
  | none => .error .ChunkNotPresent
  | some ch =>
    match load parse (lookupFile w c) ch with
    | none => .error .IOError
    | some ch1 =>
      let w1 := updateChunk w c ch1
      if containsChunk w1 c then .ok (ch1, w1) else .error .ChunkMalformed

/-- `InfdevChunk.remove` + `MCInfdevOldLevel.deleteChunk`
(src/mclevel.py:1186-1188, 2236-2240): no-op when the coordinate is absent;
otherwise `os.remove` the backing file and delete the store entry. -/
def deleteChunk (w : WorldState) (c : Int × Int) : WorldState :=
  if containsChunk w c then
    { presentChunks := w.presentChunks.filter (fun p => !(p.1 = c : Bool)),
      files := w.files.filter (fun p => !(p.1 = c : Bool)) }
  else w

/-! ## Height map and fast lights (`InfdevChunk`, src/mclevel.py:1255-1295)

`la : Nat → Nat` is the `materials.lightAbsorption` table; the `materials`
module is an external collaborator (spec §6: "a material table offering
`lightAbsorption: byte->byte`"), so it enters as a parameter. -/

/-- The array computation of `generateHeightMap` (src/mclevel.py:1273-1280):
zero the height map, then `heightMap[axes[1],axes[0]] = axes[2]` where `axes`
enumerates the cells with non-zero absorption with the y index increasing
fastest (so for each column the topmost absorbing y wins), then
`heightMap += 1` on every entry.  The height map is indexed `[z][x]`. -/
def generateHeightMapArr (la : Nat → Nat) (blocks : Arr3) : Arr2 :=
  fun z x =>
    (List.range 128).foldl
      (fun acc y => if la (blocks x z y) ≠ 0 then y else acc) 0 + 1

/-- The `generateHeightMap` method (src/mclevel.py:1270-1280): load first if
not materialized; `none` models the uncaught exception when the tag tree is
still absent afterwards (indexing `None`). -/
def generateHeightMapMeth (parse : Blob → Option RootTag)
    (fileData : Option Blob) (la : Nat → Nat) (ch : InfChunk) :
    Option InfChunk :=
  match (if ch.root_tag.isNone then load parse fileData ch else some ch) with
  | none => none
  | some ch1 =>
    match ch1.root_tag with
    | none => none
    | some rt =>
      let rt1 := { rt with HeightMap := generateHeightMapArr la rt.Blocks }
      some { ch1 with root_tag := some rt1 }

/-- `self.SkyLight[x,z,h:128] = 15` for one column (src/mclevel.py:1261). -/
def fillTopSky (s : Arr3) (x z h : Nat) : Arr3 :=
  fun x' z' y' => if x' = x ∧ z' = z ∧ h ≤ y' ∧ y' < 128 then 15 else s x' z' y'

/-- The downward loop of `genFastLights` (src/mclevel.py:1262-1268): walk `y`
from `h-1` down to 0, `lv -= max(la[block], 1)` (a Python int, may go
negative), stop at `lv <= 0`, otherwise write `lv`. -/
def fastLightColumn (la : Nat → Nat) (blocks : Arr3) (x z : Nat) :
    Nat → Int → Arr3 → Arr3
  | 0, _, s => s
  | y + 1, lv, s =>
    let lv1 := lv - (max (la (blocks x z y)) 1 : Int)
    if lv1 ≤ 0 then s
    else fastLightColumn la blocks x z y lv1 (update3 s x z y lv1.toNat)

/-- `genFastLights` (src/mclevel.py:1255-1268) on a materialized tag tree:
zero the sky light, then for each `(x,z)` column fill `[h,128)` with 15 and
run the decreasing scan below the height map. -/
def genFastLights (la : Nat → Nat) (rt : RootTag) : RootTag :=
  let sky0 : Arr3 := fun _ _ _ => 0
  let sky :=
    (List.range 16).foldl (fun s x =>
      (List.range 16).foldl (fun s z =>
        let h := rt.HeightMap z x
        fastLightColumn la rt.Blocks x z h 15 (fillTopSky s x z h)) s) sky0
  { rt with SkyLight := sky }

/-- Tail of `chunkChanged` shared by both non-unloaded branches: set `dirty`
and `needsLighting`, recompute the height map, then optionally the fast
light estimate (src/mclevel.py:1243-1247). -/
def chunkChangedBody (parse : Blob → Option RootTag) (fileData : Option Blob)
    (la : Nat → Nat) (calcLighting : Bool) (ch : InfChunk) : Option InfChunk :=
  let ch := { ch with dirty := true, needsLighting := true }
  match generateHeightMapMeth parse fileData la ch with
  | none => none
  | some ch1 =>
    if calcLighting then
      match ch1.root_tag with
      | none => none
      | some rt => some { ch1 with root_tag := some (genFastLights la rt) }
    else some ch1

/-- `InfdevChunk.chunkChanged` (src/mclevel.py:1235-1247): if the tag tree is
materialized, set `needsCompression`; otherwise, if no compressed blob is
cached either, return unchanged (unloaded chunk); then the shared tail. -/
def chunkChanged (parse : Blob → Option RootTag) (fileData : Option Blob)
    (la : Nat → Nat) (calcLighting : Bool) (ch : InfChunk) : Option InfChunk :=
  if ch.root_tag.isSome then
    chunkChangedBody parse fileData la calcLighting
      { ch with needsCompression := true }
  else if ch.compressedTag.isNone then
    some ch
  else
    chunkChangedBody parse fileData la calcLighting ch

/-- `MCInfdevOldLevel.setSkylightAt` (src/mclevel.py:1647-1660): out-of-range
`y` returns 0 (falsy) without touching anything; otherwise fetch the chunk's
sky-light array (`skyLightForChunk` = `getChunk(...).SkyLight`, whose
property getter decompresses first), and write only if the stored value is
strictly below `lightValue` (the comparison promotes the uint8 cell and uses
the unwrapped Python int), returning whether a write happened.  The
assignment into the uint8 numpy array stores `lightValue % 256`. -/
def setSkylightAt (parse : Blob → Option RootTag) (w : WorldState)
    (x y z : Int) (lightValue : Nat) : Except ChunkError (Bool × WorldState) :=
  if y < 0 ∨ 128 ≤ y then .ok (false, w)
  else
    let zc := z.fdiv 16
    let xc := x.fdiv 16
    let xIn := (x.emod 16).toNat
    let zIn := (z.emod 16).toNat
    match getChunk parse w (xc, zc) with
    | .error e => .error e
    | .ok (ch, w1) =>
      let ch2 := decompress parse ch
      let w2 := updateChunk w1 (xc, zc) ch2
      match ch2.root_tag with
      | none => .error .TypeError
      | some rt =>
        let oldValue := rt.SkyLight xIn zIn y.toNat
        if oldValue < lightValue then
          -- the store into the uint8 SkyLight array wraps the value mod 256
          let rt1 := { rt with
            SkyLight := update3 rt.SkyLight xIn zIn y.toNat (lightValue % 256) }
          .ok (true, updateChunk w2 (xc, zc) { ch2 with root_tag := some rt1 })
        else .ok (false, w2)

/-! ## The region slice iterator (`MCInfdevOldLevel.getChunkSlices`,
src/mclevel.py:2063-2113) -/

/-- Python `range(a, b)` over integers. -/
def intRange (a b : Int) : List Int :=
  (List.range (b - a).toNat).map (fun (i : Nat) => a + (i : Int))

/-- One yielded triple: the chunk (identified by its coordinate), the
`(sliceX, sliceZ, sliceY)` index triple (each a half-open `Int` interval)
and the relative offset `(newMinX, 0, newMinZ)`. -/
structure ChunkSlice where
  coord : Int × Int
  sliceX : Int × Int
  sliceZ : Int × Int
  sliceY : Int × Int
  offset : Int × Int × Int
deriving DecidableEq, Repr

/-- `getChunkSlices(box)`: iterate `cx` then `cz` over the box's chunk range,
clip the local 0..16 range on the region's min/max edge chunks, skip a
coordinate whose `blocksForChunk` raises `ChunkNotPresent` (absence from the
store), and yield the slice triple.  `present c` abstracts "`getChunk c`
succeeds", i.e. membership in `_presentChunks`. -/
def getChunkSlices (present : Int × Int → Bool) (box : BoundingBox) :
    List ChunkSlice :=
  let minxoff := box.getMinx - box.getMincx * 16
  let minzoff := box.getMinz - box.getMincz * 16
  let maxxoff := box.getMaxx - box.getMaxcx * 16 + 16
  let maxzoff := box.getMaxz - box.getMaxcz * 16 + 16
  (intRange box.getMincx box.getMaxcx).flatMap (fun cx =>
    let localMinX := if cx = box.getMincx then minxoff else 0
    let localMaxX := if cx = box.getMaxcx - 1 then maxxoff else 16
    let newMinX := localMinX + cx * 16 - box.getMinx
    (intRange box.getMincz box.getMaxcz).filterMap (fun cz =>
      let localMinZ := if cz = box.getMincz then minzoff else 0
      let localMaxZ := if cz = box.getMaxcz - 1 then maxzoff else 16
      let newMinZ := localMinZ + cz * 16 - box.getMinz
      if present (cx, cz) then
        some { coord := (cx, cz),
               sliceX := (localMinX, localMaxX),
               sliceZ := (localMinZ, localMaxZ),
               sliceY := (box.getMiny, box.getMaxy),
               offset := (newMinX, 0, newMinZ) }
      else none))

/-! ## One light relaxation pass (`MCInfdevOldLevel.generateLights`,
src/mclevel.py:1746-1890)

The model covers the body of the `for chunk in dirtyChunks` loop for one
channel (`BlockLight` or `SkyLight`) of one pass.  `LightGrid` carries the
per-chunk light arrays of the channel, the per-chunk block arrays, the store
membership predicate and the single shared buffer of the `ZeroChunk` used
for absent neighbors — in the source (src/mclevel.py:1092-1103) the zero
chunk's `Blocks`, `BlockLight` and `SkyLight` all alias one array, which the
model reproduces by serving both neighbor light and neighbor blocks from
`zeroBuf` when the neighbor is absent. -/

structure LightGrid where
  light : (Int × Int) → Arr3
  blocks : (Int × Int) → Arr3
  present : (Int × Int) → Bool
  zeroBuf : Arr3

/-- Light array of a (possibly absent) chunk coordinate. -/
def nbrLight (g : LightGrid) (n : Int × Int) : Arr3 :=
  if g.present n then g.light n else g.zeroBuf

/-- Blocks array of a (possibly absent) chunk coordinate (the zero chunk's
blocks alias its light buffer). -/
def nbrBlocks (g : LightGrid) (n : Int × Int) : Arr3 :=
  if g.present n then g.blocks n else g.zeroBuf

/-- Write a light array back: into the store for a present chunk, into the
shared zero buffer otherwise. -/
def setLight (g : LightGrid) (n : Int × Int) (a : Arr3) : LightGrid :=
  if g.present n then
    { g with light := fun c => if c = n then a else g.light c }
  else
    { g with zeroBuf := a }

/-- `zerochunkLight[:] = 0` (src/mclevel.py:1827, 1880, 1890). -/
def resetZero (g : LightGrid) : LightGrid :=
  { g with zeroBuf := fun _ _ _ => 0 }

/-- `newlight[newlight>15] = 0`: any difference that left the 0..15 range
(in uint8 arithmetic an underflow wraps past 15) becomes 0. -/
def clampNewlight (v : Nat) : Nat := if 15 < v then 0 else v

/-- uint8 subtraction `a - b` with wraparound. -/
def sub8 (a b : Nat) : Nat := (a % 256 + 256 - b % 256) % 256

/-- One numpy slice assignment `target[slice] = maximum(target[slice],
newlight)` with the clamped `newlight`: cells selected by `cond` merge the
clamped new value by `max`, all other cells keep their value. -/
def relaxUpdate (a : Arr3) (cond : Nat → Nat → Nat → Bool)
    (newlight : Nat → Nat → Nat → Nat) : Arr3 :=
  fun x z y =>
    if cond x z y then max (a x z y) (clampNewlight (newlight x z y))
    else a x z y

/-- One merge step targeting chunk coordinate `tgt`; `newlight` reads the
pre-step grid. -/
def relaxStep (g : LightGrid) (tgt : Int × Int)
    (cond : Nat → Nat → Nat → Bool)
    (newlight : LightGrid → Nat → Nat → Nat → Nat) : LightGrid :=
  setLight g tgt (relaxUpdate (nbrLight g tgt) cond (newlight g))

/-- `chunkLa = la[chunk.Blocks]+1` in uint8 arithmetic (src/mclevel.py:1774);
the blocks of the processed chunk never change during a pass, so reading
them per step equals the once-computed array. -/
def chunkLaOf (la : Nat → Nat) (g : LightGrid) (c : Int × Int) : Arr3 :=
  fun x z y => (la (g.blocks c x z y) % 256 + 1) % 256

/-- The per-chunk body of one relaxation pass for one channel
(src/mclevel.py:1760-1890): for each lateral direction propagate the edge
outward into the neighbor, relax the chunk body along the axis, pull the
neighbor's edge inward, resetting the zero chunk's buffer after each axis;
finally relax vertically both ways. -/
def relaxChunk (la : Nat → Nat) (g : LightGrid) (c : Int × Int) : LightGrid :=
  let xdec := (c.1 - 1, c.2)
  let xinc := (c.1 + 1, c.2)
  let zdec := (c.1, c.2 - 1)
  let zinc := (c.1, c.2 + 1)
  -- left edge out: ncLight[15:16,:,0:128] vs (chunkLight[0:1]-la[ncB[15:16]])-1
  let g := relaxStep g xdec (fun x z y => decide (x = 15 ∧ z < 16 ∧ y < 128))
    (fun g _ z y =>
      sub8 (sub8 (nbrLight g c 0 z y) (la (nbrBlocks g xdec 15 z y))) 1)
  -- chunk body toward -X: chunkLight[0:15] vs chunkLight[1:16]-chunkLa[0:15]
  let g := relaxStep g c (fun x z y => decide (x < 15 ∧ z < 16 ∧ y < 128))
    (fun g x z y => sub8 (nbrLight g c (x + 1) z y) (chunkLaOf la g c x z y))
  -- right edge in: chunkLight[15:16] vs ncLight[0:1]-chunkLa[15:16]
  let g := relaxStep g c (fun x z y => decide (x = 15 ∧ z < 16 ∧ y < 128))
    (fun g _ z y => sub8 (nbrLight g xinc 0 z y) (chunkLaOf la g c 15 z y))
  -- right edge out: ncLight[0:1] vs (chunkLight[15:16]-la[ncB[0:1]])-1
  let g := relaxStep g xinc (fun x z y => decide (x = 0 ∧ z < 16 ∧ y < 128))
    (fun g _ z y =>
      sub8 (sub8 (nbrLight g c 15 z y) (la (nbrBlocks g xinc 0 z y))) 1)
  -- chunk body toward +X: chunkLight[1:16] vs chunkLight[0:15]-chunkLa[1:16]
  let g := relaxStep g c
    (fun x z y => decide (1 ≤ x ∧ x < 16 ∧ z < 16 ∧ y < 128))
    (fun g x z y => sub8 (nbrLight g c (x - 1) z y) (chunkLaOf la g c x z y))
  -- left edge in: chunkLight[0:1] vs ncLight[15:16]-chunkLa[0:1]
  let g := relaxStep g c (fun x z y => decide (x = 0 ∧ z < 16 ∧ y < 128))
    (fun g _ z y => sub8 (nbrLight g xdec 15 z y) (chunkLaOf la g c 0 z y))
  let g := resetZero g
  -- bottom edge out: ncLight[:,15:16] vs (chunkLight[:,0:1]-la[ncB[:,15:16]])-1
  let g := relaxStep g zdec (fun x z y => decide (x < 16 ∧ z = 15 ∧ y < 128))
    (fun g x _ y =>
      sub8 (sub8 (nbrLight g c x 0 y) (la (nbrBlocks g zdec x 15 y))) 1)
  -- chunk body toward -Z: chunkLight[:,0:15] vs chunkLight[:,1:16]-chunkLa[:,0:15]
  let g := relaxStep g c (fun x z y => decide (x < 16 ∧ z < 15 ∧ y < 128))
    (fun g x z y => sub8 (nbrLight g c x (z + 1) y) (chunkLaOf la g c x z y))
  -- top edge in: chunkLight[:,15:16] vs ncLight[:,0:1]-chunkLa[:,15:16]
  let g := relaxStep g c (fun x z y => decide (x < 16 ∧ z = 15 ∧ y < 128))
    (fun g x _ y => sub8 (nbrLight g zinc x 0 y) (chunkLaOf la g c x 15 y))
  -- top edge out: ncLight[:,0:1] vs (chunkLight[:,15:16]-la[ncB[:,0:1]])-1
  let g := relaxStep g zinc (fun x z y => decide (x < 16 ∧ z = 0 ∧ y < 128))
    (fun g x _ y =>
      sub8 (sub8 (nbrLight g c x 15 y) (la (nbrBlocks g zinc x 0 y))) 1)
  -- chunk body toward +Z: chunkLight[:,1:16] vs chunkLight[:,0:15]-chunkLa[:,1:16]
  let g := relaxStep g c
    (fun x z y => decide (x < 16 ∧ 1 ≤ z ∧ z < 16 ∧ y < 128))
    (fun g x z y => sub8 (nbrLight g c x (z - 1) y) (chunkLaOf la g c x z y))
  -- bottom edge in: chunkLight[:,0:1] vs ncLight[:,15:16]-chunkLa[:,0:1]
  let g := relaxStep g c (fun x z y => decide (x < 16 ∧ z = 0 ∧ y < 128))
    (fun g x _ y => sub8 (nbrLight g zdec x 15 y) (chunkLaOf la g c x 0 y))
  let g := resetZero g
  -- vertical up: chunkLight[:,:,1:128] vs chunkLight[:,:,0:127]-chunkLa[:,:,1:128]
  let g := relaxStep g c
    (fun x z y => decide (x < 16 ∧ z < 16 ∧ 1 ≤ y ∧ y < 128))
    (fun g x z y => sub8 (nbrLight g c x z (y - 1)) (chunkLaOf la g c x z y))
  -- vertical down: chunkLight[:,:,0:127] vs chunkLight[:,:,1:128]-chunkLa[:,:,0:127]
  let g := relaxStep g c (fun x z y => decide (x < 16 ∧ z < 16 ∧ y < 127))
    (fun g x z y => sub8 (nbrLight g c x z (y + 1)) (chunkLaOf la g c x z y))
  resetZero g

/-- One full relaxation pass of one channel: the per-chunk body over the
sorted dirty-chunk list (`for chunk in dirtyChunks`, src/mclevel.py:1760). -/
def relaxPass (la : Nat → Nat) (g : LightGrid) (cs : List (Int × Int)) :
    LightGrid :=
  cs.foldl (relaxChunk la) g

/-- All light cells of the grid (every chunk's array of the channel and the
zero chunk's shared buffer) are valid 4-bit light values. -/
def BoundedGrid (g : LightGrid) : Prop :=
  (∀ c x z y, g.light c x z y ≤ 15) ∧ (∀ x z y, g.zeroBuf x z y ≤ 15)

/-! ## Concrete fixtures used by witnesses and counterexamples -/

/-- A tag tree whose arrays are all zero. -/
def zeroRootTag : RootTag :=
  { Blocks := fun _ _ _ => 0, Data := fun _ _ _ => 0,
    BlockLight := fun _ _ _ => 0, SkyLight := fun _ _ _ => 0,
    HeightMap := fun _ _ => 0 }

/-- A codec that accepts every blob, producing the all-zero tag tree. -/
def parseAlwaysZero : Blob → Option RootTag := fun _ => some zeroRootTag

/-- A codec that rejects every blob (corrupt data). -/
def parseNever : Blob → Option RootTag := fun _ => none

/-- A loaded chunk with all-zero arrays and a cached blob. -/
def skyChunk : InfChunk :=
  { compressedTag := some [2], root_tag := some zeroRootTag,
    dirty := false, needsCompression := false, needsLighting := false }

/-- A one-chunk store holding `skyChunk` at `(0, 0)`. -/
def skyWorld : WorldState := ⟨[((0, 0), skyChunk)], []⟩

/-- A tag tree whose sky-light cells all hold 10. -/
def tenSkyRootTag : RootTag :=
  { Blocks := fun _ _ _ => 0, Data := fun _ _ _ => 0,
    BlockLight := fun _ _ _ => 0, SkyLight := fun _ _ _ => 10,
    HeightMap := fun _ _ => 0 }

/-- A loaded chunk whose sky-light cells all hold 10. -/
def tenSkyChunk : InfChunk :=
  { compressedTag := some [3], root_tag := some tenSkyRootTag,
    dirty := false, needsCompression := false, needsLighting := false }

/-- A one-chunk store holding `tenSkyChunk` at `(0, 0)`. -/
def tenSkyWorld : WorldState := ⟨[((0, 0), tenSkyChunk)], []⟩

/-! # Theorems -/

set_option maxRecDepth 4096 in
/-- Recombining the two nibbles of a byte gives the byte back. -/
theorem byte_nibble_recompose :
    ∀ b, b < 256 → ((b / 16) <<< 4) % 256 ||| b % 16 = b := by decide

/-- C2: for a packed nibble array of bytes, `unpackChunkData` puts the low
nibble of packed byte `k` at cell `y = 2k` and its high nibble at
`y = 2k+1`, and `packChunkData` applied to the result restores the packed
byte exactly (`pack(unpack(x)) == x`). -/
theorem unpackChunkData_packChunkData_roundtrip (d : Arr3) (x z k : Nat)
    (hk : k < 64) (hb : d x z k < 256) :
    unpackChunkData d x z (2 * k) = d x z k % 16 ∧
    unpackChunkData d x z (2 * k + 1) = d x z k / 16 ∧
    packChunkData (unpackChunkData d) x z k = d x z k := by
  have h0 : (2 * k) % 2 = 0 := by omega
  have h1 : (2 * k + 1) % 2 = 1 := by omega
  have h2 : (2 * k) / 2 = k := by omega
  have h3 : (2 * k + 1) / 2 = k := by omega
  refine ⟨?_, ?_, ?_⟩
  · simp [unpackChunkData, h0, h2]
  · simp [unpackChunkData, h1, h3]
  · simp only [packChunkData, unpackChunkData, h0, h1, h2, h3, if_pos, if_neg,
      one_ne_zero, ite_true, ite_false]
    exact byte_nibble_recompose _ hb

/-- Witness for C2 at the constant packed byte `171 = 0xAB`. -/
theorem unpackChunkData_packChunkData_roundtrip_witness :
    (0:Nat) < 64 ∧ (171:Nat) < 256 ∧
    (unpackChunkData (fun _ _ _ => 171) 0 0 0 = 171 % 16 ∧
     unpackChunkData (fun _ _ _ => 171) 0 0 1 = 171 / 16 ∧
     packChunkData (unpackChunkData (fun _ _ _ => 171)) 0 0 0 = 171) :=
  ⟨by decide, by decide,
   unpackChunkData_packChunkData_roundtrip (fun _ _ _ => 171) 0 0 0
     (by decide) (by decide)⟩

/-- C8: `dirhash` sends the 64 residues mod 64 to 64 pairwise-distinct
labels — a single alphabet character for residues below 36, a `'1'`-prefixed
two-character label for residues 36..63 — and `decbase36` decodes the label
of any integer back to `n % 64`. -/
theorem dirhash_decbase36_inverse :
    ((List.finRange 64).map (fun m => dirhashNat m.val)).Nodup ∧
    (∀ m : Fin 64,
      ((m : Nat) < 36 ∧ (dirhashNat m).length = 1) ∨
      (36 ≤ (m : Nat) ∧ (dirhashNat m).length = 2 ∧
        (dirhashNat m).head? = some '1')) ∧
    (∀ n : Int, decbase36 (dirhash n) = n % 64) := by
  refine ⟨by decide, by decide, ?_⟩
  intro n
  have h0 : (0:Int) ≤ n % 64 := Int.emod_nonneg n (by norm_num)
  have h1 : n % 64 < 64 := Int.emod_lt_of_pos n (by norm_num)
  have hm : (n % 64).toNat < 64 := by omega
  have key : ∀ m : Fin 64, decbase36 (dirhashNat m) = (m : Int) := by decide
  have hkey : decbase36 (dirhashNat (n % 64).toNat) = ((n % 64).toNat : Int) :=
    key ⟨(n % 64).toNat, hm⟩
  show decbase36 (dirhashNat (n % 64).toNat) = n % 64
  rw [hkey]
  omega

/-- C6 counterexample: on the zero-size box at the origin (all size
components non-negative), `setMinx 1` drives `size[0]` to `-1`: a min-edge
setter does not clamp, so the claimed invariant fails as stated. -/
theorem boundingBox_setMinx_negative_size :
    (0:Int) ≤ (⟨0, 0, 0, 0, 0, 0⟩ : BoundingBox).sizeX ∧
    (0:Int) ≤ (⟨0, 0, 0, 0, 0, 0⟩ : BoundingBox).sizeY ∧
    (0:Int) ≤ (⟨0, 0, 0, 0, 0, 0⟩ : BoundingBox).sizeZ ∧
    (BoundingBox.setMinx ⟨0, 0, 0, 0, 0, 0⟩ 1).sizeX = -1 := by decide

/-- C6 (amended): max-edge setters clamp, so they keep every size component
non-negative and preserve the corresponding min edge; min-edge setters
preserve the corresponding max edge (and the other size components) but do
not clamp, so they can leave a negative size. -/
theorem boundingBox_setter_properties (b : BoundingBox) (v : Int)
    (h : 0 ≤ b.sizeX ∧ 0 ≤ b.sizeY ∧ 0 ≤ b.sizeZ) :
    (0 ≤ (b.setMaxx v).sizeX ∧ 0 ≤ (b.setMaxx v).sizeY ∧
      0 ≤ (b.setMaxx v).sizeZ) ∧
    (0 ≤ (b.setMaxy v).sizeX ∧ 0 ≤ (b.setMaxy v).sizeY ∧
      0 ≤ (b.setMaxy v).sizeZ) ∧
    (0 ≤ (b.setMaxz v).sizeX ∧ 0 ≤ (b.setMaxz v).sizeY ∧
      0 ≤ (b.setMaxz v).sizeZ) ∧
    ((b.setMinx v).getMaxx = b.getMaxx ∧ (b.setMiny v).getMaxy = b.getMaxy ∧
      (b.setMinz v).getMaxz = b.getMaxz) ∧
    ((b.setMaxx v).getMinx = b.getMinx ∧ (b.setMaxy v).getMiny = b.getMiny ∧
      (b.setMaxz v).getMinz = b.getMinz) := by
  obtain ⟨h1, h2, h3⟩ := h
  simp only [BoundingBox.setMinx, BoundingBox.setMiny, BoundingBox.setMinz,
    BoundingBox.setMaxx, BoundingBox.setMaxy, BoundingBox.setMaxz,
    BoundingBox.getMinx, BoundingBox.getMiny, BoundingBox.getMinz,
    BoundingBox.getMaxx, BoundingBox.getMaxy, BoundingBox.getMaxz]
  refine ⟨⟨?_, ?_, ?_⟩, ⟨?_, ?_, ?_⟩, ⟨?_, ?_, ?_⟩, ⟨?_, ?_, ?_⟩,
    ⟨?_, ?_, ?_⟩⟩ <;>
    first
    | trivial
    | omega
    | (split_ifs <;> omega)

/-- Witness for C6 (amended) on a concrete box and a clamping `setMaxx`. -/
theorem boundingBox_setter_properties_witness :
    ((0:Int) ≤ (4:Int) ∧ (0:Int) ≤ (5:Int) ∧ (0:Int) ≤ (6:Int)) ∧
    0 ≤ (BoundingBox.setMaxx ⟨1, 2, 3, 4, 5, 6⟩ (-100)).sizeX :=
  ⟨by decide,
   (boundingBox_setter_properties ⟨1, 2, 3, 4, 5, 6⟩ (-100) (by decide)).1.1⟩

/-- A "keep the last index satisfying `P`" fold over `range n` returns its
seed when nothing satisfies `P`. -/
theorem foldl_topmost_none (P : Nat → Prop) [DecidablePred P] (n a : Nat)
    (h : ∀ y, y < n → ¬ P y) :
    (List.range n).foldl (fun acc y => if P y then y else acc) a = a := by
  induction n with
  | zero => rfl
  | succ m ih =>
    rw [List.range_succ, List.foldl_append]
    simp only [List.foldl_cons, List.foldl_nil]
    rw [if_neg (h m (by omega))]
    exact ih (fun y hy => h y (by omega))

/-- A "keep the last index satisfying `P`" fold over `range n` returns the
largest satisfying index. -/
theorem foldl_topmost_last (P : Nat → Prop) [DecidablePred P] (n a y0 : Nat)
    (hy : y0 < n) (hp : P y0) (hafter : ∀ y, y0 < y → y < n → ¬ P y) :
    (List.range n).foldl (fun acc y => if P y then y else acc) a = y0 := by
  induction n with
  | zero => omega
  | succ m ih =>
    rw [List.range_succ, List.foldl_append]
    simp only [List.foldl_cons, List.foldl_nil]
    by_cases hm : y0 = m
    · subst hm; rw [if_pos hp]
    · rw [if_neg (hafter m (by omega) (by omega))]
      exact ih (by omega) (fun y h2 h3 => hafter y h2 (by omega))

/-- C5 counterexample: on an all-air chunk (no light-absorbing block in any
column) the generated height-map entry is 1, not the claimed 0, because the
code increments every entry after placing the topmost absorbing indices. -/
theorem generateHeightMap_empty_column_cex :
    generateHeightMapArr (fun _ => 0) (fun _ _ _ => 0) 0 0 = 1 ∧
    generateHeightMapArr (fun _ => 0) (fun _ _ _ => 0) 0 0 ≠ 0 := by
  constructor <;> decide

/-- C5 (amended): after `generateHeightMap()` a column whose topmost block
with non-zero light absorption sits at height `y0` gets entry `y0 + 1`; a
column with no light-absorbing block gets entry 1 (not 0). -/
theorem generateHeightMap_characterization (la : Nat → Nat) (blocks : Arr3)
    (z x : Nat) :
    ((∀ y, y < 128 → la (blocks x z y) = 0) →
      generateHeightMapArr la blocks z x = 1) ∧
    (∀ y0, y0 < 128 → la (blocks x z y0) ≠ 0 →
      (∀ y, y0 < y → y < 128 → la (blocks x z y) = 0) →
      generateHeightMapArr la blocks z x = y0 + 1) := by
  constructor
  · intro h
    unfold generateHeightMapArr
    rw [foldl_topmost_none (fun y => la (blocks x z y) ≠ 0) 128 0
      (fun y hy => by simpa using h y hy)]
  · intro y0 h1 h2 h3
    unfold generateHeightMapArr
    rw [foldl_topmost_last (fun y => la (blocks x z y) ≠ 0) 128 0 y0 h1 h2
      (fun y hy1 hy2 => by simpa using h3 y hy1 hy2)]

/-- Witness for C5 (amended): a single absorbing block at height 5 yields
entry 6. -/
theorem generateHeightMap_characterization_witness :
    ((5:Nat) < 128 ∧
      (fun b => b) ((fun (_ _ y : Nat) => if y = 5 then 7 else 0) 0 0 5) ≠ 0) ∧
    generateHeightMapArr (fun b => b) (fun _ _ y => if y = 5 then 7 else 0)
      0 0 = 5 + 1 :=
  ⟨⟨by decide, by decide⟩,
   (generateHeightMap_characterization (fun b => b)
       (fun _ _ y => if y = 5 then 7 else 0) 0 0).2 5 (by decide) (by decide)
     (fun y h1 _ => by
       have hy : y ≠ 5 := by omega
       simp [hy])⟩

/-! ### Association-list lemmas for the chunk store -/

/-- Filtering a key out of an association list makes lookups of it fail. -/
theorem find?_filter_out {α : Type} (l : List ((Int × Int) × α))
    (c : Int × Int) :
    (l.filter (fun p => !(p.1 = c : Bool))).find?
      (fun p => (p.1 = c : Bool)) = none := by
  induction l with
  | nil => rfl
  | cons hd tl ih =>
    by_cases h : hd.1 = c
    · simpa [List.filter_cons, h] using ih
    · simpa [List.filter_cons, h, List.find?_cons] using ih

/-- Replacing the value stored under `c` rewires a lookup of `c`. -/
theorem find?_map_update {α : Type} (l : List ((Int × Int) × α))
    (c : Int × Int) (a : α) :
    (l.map (fun p => if p.1 = c then (c, a) else p)).find?
        (fun p => (p.1 = c : Bool))
      = (l.find? (fun p => (p.1 = c : Bool))).map (fun _ => (c, a)) := by
  induction l with
  | nil => rfl
  | cons hd tl ih =>
    by_cases h : hd.1 = c
    · simp [List.find?_cons, h]
    · simpa [List.find?_cons, h] using ih

/-- Replacing the value stored under `c` leaves other lookups alone. -/
theorem find?_map_update_ne {α : Type} (l : List ((Int × Int) × α))
    (c c' : Int × Int) (a : α) (hne : c' ≠ c) :
    (l.map (fun p => if p.1 = c then (c, a) else p)).find?
        (fun p => (p.1 = c' : Bool))
      = l.find? (fun p => (p.1 = c' : Bool)) := by
  induction l with
  | nil => rfl
  | cons hd tl ih =>
    by_cases h : hd.1 = c
    · have h1 : ¬(c = c') := fun e => hne e.symm
      have h2 : ¬(hd.1 = c') := by rw [h]; exact h1
      simpa [List.find?_cons, h, h1, h2] using ih
    · by_cases h' : hd.1 = c'
      · simp [List.find?_cons, h, h', hne]
      · simpa [List.find?_cons, h, h'] using ih

/-- `updateChunk` stores the new chunk value under an existing key. -/
theorem lookupChunk_updateChunk_self (w : WorldState) (c : Int × Int)
    (ch : InfChunk) (h : containsChunk w c = true) :
    lookupChunk (updateChunk w c ch) c = some ch := by
  unfold lookupChunk updateChunk
  rw [find?_map_update]
  unfold containsChunk lookupChunk at h
  cases hfind : w.presentChunks.find? (fun p => (p.1 = c : Bool)) with
  | none => rw [hfind] at h; simp at h
  | some p => simp

/-- `updateChunk` leaves other coordinates alone. -/
theorem lookupChunk_updateChunk_ne (w : WorldState) (c c' : Int × Int)
    (ch : InfChunk) (hne : c' ≠ c) :
    lookupChunk (updateChunk w c ch) c' = lookupChunk w c' := by
  unfold lookupChunk updateChunk
  rw [find?_map_update_ne _ _ _ _ hne]

/-- `updateChunk` does not change which coordinates are present. -/
theorem containsChunk_updateChunk (w : WorldState) (c : Int × Int)
    (ch : InfChunk) :
    containsChunk (updateChunk w c ch) c = containsChunk w c := by
  unfold containsChunk lookupChunk updateChunk
  rw [find?_map_update]
  cases w.presentChunks.find? (fun p => (p.1 = c : Bool)) <;> simp

/-- C9: `deleteChunk` is a no-op for an absent coordinate; for a present one
it removes both the store entry and the backing file; in either case a
subsequent `getChunk` of the coordinate fails with `ChunkNotPresent`. -/
theorem deleteChunk_spec (parse : Blob → Option RootTag) (w : WorldState)
    (c : Int × Int) :
    (containsChunk w c = false → deleteChunk w c = w) ∧
    (containsChunk w c = true →
      containsChunk (deleteChunk w c) c = false ∧
      lookupFile (deleteChunk w c) c = none) ∧
    getChunk parse (deleteChunk w c) c =
      Except.error ChunkError.ChunkNotPresent := by
  have hdel : lookupChunk (deleteChunk w c) c = none := by
    unfold deleteChunk
    by_cases h : containsChunk w c
    · rw [if_pos h]
      unfold lookupChunk
      rw [find?_filter_out]
      rfl
    · rw [if_neg h]
      unfold containsChunk at h
      cases hlk : lookupChunk w c with
      | none => rfl
      | some p =>
        exfalso
        apply h
        rw [hlk]
        rfl
  refine ⟨?_, ?_, ?_⟩
  · intro h
    unfold deleteChunk
    rw [h]
    rfl
  · intro h
    constructor
    · unfold containsChunk
      rw [hdel]
      rfl
    · unfold deleteChunk
      rw [if_pos h]
      unfold lookupFile
      rw [find?_filter_out]
      rfl
  · unfold getChunk
    rw [hdel]

/-- Witness for C9 on a one-chunk store. -/
theorem deleteChunk_spec_witness :
    containsChunk ⟨[((0, 0), InfChunk.fresh)], [((0, 0), [7])]⟩ (0, 0)
        = true ∧
    (containsChunk
        (deleteChunk ⟨[((0, 0), InfChunk.fresh)], [((0, 0), [7])]⟩ (0, 0))
        (0, 0) = false ∧
      lookupFile
        (deleteChunk ⟨[((0, 0), InfChunk.fresh)], [((0, 0), [7])]⟩ (0, 0))
        (0, 0) = none) ∧
    getChunk parseNever
        (deleteChunk ⟨[((0, 0), InfChunk.fresh)], [((0, 0), [7])]⟩ (0, 0))
        (0, 0) = Except.error ChunkError.ChunkNotPresent :=
  ⟨rfl,
   (deleteChunk_spec parseNever ⟨[((0, 0), InfChunk.fresh)],
       [((0, 0), [7])]⟩ (0, 0)).2.1 rfl,
   (deleteChunk_spec parseNever ⟨[((0, 0), InfChunk.fresh)],
       [((0, 0), [7])]⟩ (0, 0)).2.2⟩

/-- C1 (code bug): for a present coordinate whose file content does not
parse as a chunk tag tree, `getChunk` does *not* fail with `ChunkMalformed`
and does *not* remove the coordinate from the store: because the
`self.world.malformedChunk(...)` call in `decompress` is commented out
(src/mclevel.py:336-346), `load()` leaves `_presentChunks` untouched, so the
`ChunkMalformed` branch of `getChunk` (src/mclevel.py:1689-1690) is
unreachable and the chunk is returned unmaterialized (`root_tag` still
`None`) with the coordinate still present. -/
theorem getChunk_unparseable_no_removal (parse : Blob → Option RootTag)
    (w : WorldState) (c : Int × Int) (ch : InfChunk) (b : Blob)
    (hch : lookupChunk w c = some ch)
    (hct : ch.compressedTag = none) (hrt : ch.root_tag = none)
    (hfile : lookupFile w c = some b) (hparse : parse b = none) :
    getChunk parse w c =
      Except.ok ({ ch with compressedTag := some b },
        updateChunk w c { ch with compressedTag := some b }) ∧
    containsChunk (updateChunk w c { ch with compressedTag := some b }) c
      = true ∧
    InfChunk.root_tag { ch with compressedTag := some b } = none := by
  have hcontains : containsChunk w c = true := by
    unfold containsChunk
    rw [hch]
    rfl
  have hload : load parse (lookupFile w c) ch
      = some { ch with compressedTag := some b } := by
    unfold load decompress
    rw [hct, hfile]
    simp [hrt, hparse]
  have hcontains1 : containsChunk
      (updateChunk w c { ch with compressedTag := some b }) c = true := by
    rw [containsChunk_updateChunk]
    exact hcontains
  refine ⟨?_, hcontains1, hrt⟩
  unfold getChunk
  rw [hch]
  simp only []
  rw [hload]
  simp only [hcontains1, if_true]

/-- Witness for C1 on a one-chunk store whose file holds unparseable data. -/
theorem getChunk_unparseable_no_removal_witness :
    getChunk parseNever ⟨[((0, 0), InfChunk.fresh)], [((0, 0), [9])]⟩ (0, 0)
      = Except.ok ({ InfChunk.fresh with compressedTag := some [9] },
          updateChunk ⟨[((0, 0), InfChunk.fresh)], [((0, 0), [9])]⟩ (0, 0)
            { InfChunk.fresh with compressedTag := some [9] }) ∧
    containsChunk
        (updateChunk ⟨[((0, 0), InfChunk.fresh)], [((0, 0), [9])]⟩ (0, 0)
          { InfChunk.fresh with compressedTag := some [9] }) (0, 0) = true ∧
    InfChunk.root_tag { InfChunk.fresh with compressedTag := some [9] }
      = none :=
  getChunk_unparseable_no_removal parseNever
    ⟨[((0, 0), InfChunk.fresh)], [((0, 0), [9])]⟩ (0, 0) InfChunk.fresh [9]
    rfl rfl rfl rfl rfl

/-- C7 counterexample: on a chunk holding only a compressed blob (no
materialized arrays), `chunkChanged` leaves `needsCompression` false — the
source sets it only in the `root_tag != None` branch — contradicting the
claim that every non-unloaded chunk gets `needsCompression` set. -/
theorem chunkChanged_compressed_only_cex :
    (chunkChanged parseAlwaysZero none (fun _ => 0) true
        { compressedTag := some [1], root_tag := none, dirty := false,
          needsCompression := false, needsLighting := false }).map
      (fun ch => ch.needsCompression) = some false ∧
    (chunkChanged parseAlwaysZero none (fun _ => 0) true
        { compressedTag := some [1], root_tag := none, dirty := false,
          needsCompression := false, needsLighting := false }).map
      (fun ch => ch.needsCompression) ≠ some true := by
  have h : (chunkChanged parseAlwaysZero none (fun _ => 0) true
      { compressedTag := some [1], root_tag := none, dirty := false,
        needsCompression := false, needsLighting := false }).map
      (fun ch => ch.needsCompression) = some false := rfl
  exact ⟨h, by rw [h]; simp⟩

/-- C7 (amended): `chunkChanged` is a no-op on an unloaded chunk with no
cached blob; on a chunk with materialized arrays it sets `needsCompression`,
`dirty` and `needsLighting` and recomputes the height map; on a chunk with
only a compressed blob it sets `dirty` and `needsLighting` and recomputes
the height map after loading, but leaves `needsCompression` unchanged. -/
theorem chunkChanged_spec (parse : Blob → Option RootTag)
    (fileData : Option Blob) (la : Nat → Nat) (calcLighting : Bool)
    (ch : InfChunk) :
    (ch.root_tag = none → ch.compressedTag = none →
      chunkChanged parse fileData la calcLighting ch = some ch) ∧
    (∀ rt, ch.root_tag = some rt →
      ∃ ch1 rt1, chunkChanged parse fileData la calcLighting ch = some ch1 ∧
        ch1.needsCompression = true ∧ ch1.dirty = true ∧
        ch1.needsLighting = true ∧ ch1.root_tag = some rt1 ∧
        rt1.HeightMap = generateHeightMapArr la rt.Blocks) ∧
    (∀ b rt, ch.root_tag = none → ch.compressedTag = some b →
      parse b = some rt →
      ∃ ch1 rt1, chunkChanged parse fileData la calcLighting ch = some ch1 ∧
        ch1.needsCompression = ch.needsCompression ∧ ch1.dirty = true ∧
        ch1.needsLighting = true ∧ ch1.root_tag = some rt1 ∧
        rt1.HeightMap = generateHeightMapArr la rt.Blocks) := by
  refine ⟨?_, ?_, ?_⟩
  · intro h1 h2
    unfold chunkChanged
    rw [h1, h2]
    rfl
  · intro rt h
    unfold chunkChanged chunkChangedBody generateHeightMapMeth
    rw [h]
    cases calcLighting <;>
      exact ⟨_, _, rfl, rfl, rfl, rfl, rfl, rfl⟩
  · intro b rt h1 h2 h3
    unfold chunkChanged chunkChangedBody generateHeightMapMeth load decompress
    rw [h1, h2]
    simp only [Option.isSome_none, Bool.false_eq_true, if_false,
      Option.isNone_none, Option.isNone_some, if_true, Option.isSome_some,
      h3]
    cases calcLighting <;>
      exact ⟨_, _, rfl, rfl, rfl, rfl, rfl, rfl⟩

/-- Witness for C7 (amended) on a loaded all-zero chunk. -/
theorem chunkChanged_spec_witness :
    InfChunk.root_tag
        { compressedTag := some [], root_tag := some zeroRootTag,
          dirty := false, needsCompression := false, needsLighting := false }
      = some zeroRootTag ∧
    (∃ ch1 rt1, chunkChanged parseAlwaysZero none (fun _ => 0) true
        { compressedTag := some [], root_tag := some zeroRootTag,
          dirty := false, needsCompression := false, needsLighting := false }
        = some ch1 ∧
      ch1.needsCompression = true ∧ ch1.dirty = true ∧
      ch1.needsLighting = true ∧ ch1.root_tag = some rt1 ∧
      rt1.HeightMap = generateHeightMapArr (fun _ => 0) zeroRootTag.Blocks) :=
  ⟨rfl,
   (chunkChanged_spec parseAlwaysZero none (fun _ => 0) true
       { compressedTag := some [], root_tag := some zeroRootTag,
         dirty := false, needsCompression := false,
         needsLighting := false }).2.1 zeroRootTag rfl⟩

/-- The written cell of `update3` holds the new value. -/
theorem update3_self (a : Arr3) (x z y v : Nat) :
    update3 a x z y v x z y = v := by simp [update3]

/-- Every other cell of `update3` is unchanged. -/
theorem update3_other (a : Arr3) (x z y v x' z' y' : Nat)
    (h : ¬(x' = x ∧ z' = z ∧ y' = y)) :
    update3 a x z y v x' z' y' = a x' z' y' := by simp [update3, h]

/-- C10 counterexample: the sky-light store wraps at a byte, so a write is
not always an increase — on a chunk whose cell holds 10, `setSkylightAt`
with `lightValue = 261` takes the `oldValue < lightValue` branch (10 < 261),
reports a write, and the uint8 array assignment stores `261 % 256 = 5`,
*lowering* the cell from 10 to 5 and not storing 261. -/
theorem setSkylightAt_wrap_lowers_cex :
    tenSkyRootTag.SkyLight 3 5 7 = 10 ∧
    (setSkylightAt parseNever tenSkyWorld 3 7 5 261).toOption.map
      (fun p => p.1) = some true ∧
    (setSkylightAt parseNever tenSkyWorld 3 7 5 261).toOption.bind
      (fun p => (lookupChunk p.2 (0, 0)).bind
        (fun ch => ch.root_tag.map (fun rt => rt.SkyLight 3 5 7)))
      = some 5 ∧
    (5 : Nat) < 10 ∧ (5 : Nat) ≠ 261 := by
  refine ⟨rfl, rfl, rfl, by omega, by omega⟩

/-- C10 (amended): on a present, loaded chunk, `setSkylightAt` writes into
the addressed sky-light cell only when `v` is strictly greater than the
stored value, and the uint8 store wraps: the cell then holds `v % 256` (so
for `v ≤ 255` the write is exactly `v` and never lowers a cell, while a
`v ≥ 256` can wrap and lower it); it returns `True` exactly when it wrote,
leaves every other sky-light cell and every other chunk unchanged; for `y`
outside `[0, 128)` it returns falsy and leaves the whole store untouched. -/
theorem setSkylightAt_spec (parse : Blob → Option RootTag) (w : WorldState)
    (x y z : Int) (v : Nat) (ch : InfChunk) (rt : RootTag) (b : Blob)
    (hch : lookupChunk w (x.fdiv 16, z.fdiv 16) = some ch)
    (hrt : ch.root_tag = some rt) (hct : ch.compressedTag = some b) :
    (y < 0 ∨ 128 ≤ y →
      setSkylightAt parse w x y z v = Except.ok (false, w)) ∧
    (0 ≤ y → y < 128 →
      (rt.SkyLight (x.emod 16).toNat (z.emod 16).toNat y.toNat < v →
        ∃ w2 ch2 rt2,
          setSkylightAt parse w x y z v = Except.ok (true, w2) ∧
          lookupChunk w2 (x.fdiv 16, z.fdiv 16) = some ch2 ∧
          ch2.root_tag = some rt2 ∧
          rt2.SkyLight (x.emod 16).toNat (z.emod 16).toNat y.toNat
            = v % 256 ∧
          (∀ x' z' y',
            ¬(x' = (x.emod 16).toNat ∧ z' = (z.emod 16).toNat ∧
                y' = y.toNat) →
            rt2.SkyLight x' z' y' = rt.SkyLight x' z' y') ∧
          (∀ c', c' ≠ (x.fdiv 16, z.fdiv 16) →
            lookupChunk w2 c' = lookupChunk w c')) ∧
      (v ≤ rt.SkyLight (x.emod 16).toNat (z.emod 16).toNat y.toNat →
        ∃ w2,
          setSkylightAt parse w x y z v = Except.ok (false, w2) ∧
          lookupChunk w2 (x.fdiv 16, z.fdiv 16) = some ch ∧
          (∀ c', c' ≠ (x.fdiv 16, z.fdiv 16) →
            lookupChunk w2 c' = lookupChunk w c'))) := by
  have hcont : containsChunk w (x.fdiv 16, z.fdiv 16) = true := by
    unfold containsChunk
    rw [hch]
    rfl
  have hload : load parse (lookupFile w (x.fdiv 16, z.fdiv 16)) ch
      = some ch := by
    unfold load
    rw [hct]
    simp [hrt]
  have hdec : decompress parse ch = ch := by
    unfold decompress
    rw [hrt]
    rfl
  have hget : getChunk parse w (x.fdiv 16, z.fdiv 16)
      = Except.ok (ch, updateChunk w (x.fdiv 16, z.fdiv 16) ch) := by
    unfold getChunk
    rw [hch]
    simp only []
    rw [hload]
    simp only [containsChunk_updateChunk, hcont, if_true]
  have hcont1 : containsChunk
      (updateChunk w (x.fdiv 16, z.fdiv 16) ch) (x.fdiv 16, z.fdiv 16)
      = true := by
    rw [containsChunk_updateChunk]
    exact hcont
  have hcont2 : containsChunk
      (updateChunk (updateChunk w (x.fdiv 16, z.fdiv 16) ch)
        (x.fdiv 16, z.fdiv 16) ch) (x.fdiv 16, z.fdiv 16) = true := by
    rw [containsChunk_updateChunk]
    exact hcont1
  refine ⟨?_, ?_⟩
  · intro h
    unfold setSkylightAt
    rw [if_pos h]
  · intro hy0 hy1
    constructor
    · intro hlt
      have hmain : setSkylightAt parse w x y z v
          = Except.ok (true,
              updateChunk
                (updateChunk (updateChunk w (x.fdiv 16, z.fdiv 16) ch)
                  (x.fdiv 16, z.fdiv 16) ch)
                (x.fdiv 16, z.fdiv 16)
                { ch with root_tag := some ({ rt with SkyLight := update3 rt.SkyLight (x.emod 16).toNat (z.emod 16).toNat y.toNat (v % 256) }) }) := by
        unfold setSkylightAt
        rw [if_neg (by omega)]
        simp only []
        rw [hget]
        simp only []
        rw [hdec, hrt]
        simp only []
        rw [if_pos hlt]
      refine ⟨_, { ch with root_tag := some ({ rt with SkyLight := update3 rt.SkyLight (x.emod 16).toNat (z.emod 16).toNat y.toNat (v % 256) }) }, { rt with SkyLight := update3 rt.SkyLight (x.emod 16).toNat (z.emod 16).toNat y.toNat (v % 256) }, hmain, ?_, rfl, update3_self _ _ _ _ _,
        fun x' z' y' h => update3_other _ _ _ _ _ _ _ _ h, ?_⟩
      · exact lookupChunk_updateChunk_self _ _ _ hcont2
      · intro c' hne
        rw [lookupChunk_updateChunk_ne _ _ _ _ hne,
          lookupChunk_updateChunk_ne _ _ _ _ hne,
          lookupChunk_updateChunk_ne _ _ _ _ hne]
    · intro hge
      have hmain : setSkylightAt parse w x y z v
          = Except.ok (false,
              updateChunk (updateChunk w (x.fdiv 16, z.fdiv 16) ch)
                (x.fdiv 16, z.fdiv 16) ch) := by
        unfold setSkylightAt
        rw [if_neg (by omega)]
        simp only []
        rw [hget]
        simp only []
        rw [hdec, hrt]
        simp only []
        rw [if_neg (by omega)]
      refine ⟨_, hmain, ?_, ?_⟩
      · exact lookupChunk_updateChunk_self _ _ _ hcont1
      · intro c' hne
        rw [lookupChunk_updateChunk_ne _ _ _ _ hne,
          lookupChunk_updateChunk_ne _ _ _ _ hne]

/-- Witness for C10: an in-range monotone write on `skyWorld` and an
out-of-range no-op. -/
theorem setSkylightAt_spec_witness :
    (((0:Int) ≤ 7) ∧ ((7:Int) < 128) ∧
      zeroRootTag.SkyLight 3 5 7 < 9 ∧ ((200:Int) < 0 ∨ (128:Int) ≤ 200)) ∧
    (∃ w2 ch2 rt2,
      setSkylightAt parseNever skyWorld 3 7 5 9 = Except.ok (true, w2) ∧
      lookupChunk w2 ((3:Int).fdiv 16, (5:Int).fdiv 16) = some ch2 ∧
      ch2.root_tag = some rt2 ∧
      rt2.SkyLight ((3:Int).emod 16).toNat ((5:Int).emod 16).toNat
        (7:Int).toNat = 9 ∧
      (∀ x' z' y',
        ¬(x' = ((3:Int).emod 16).toNat ∧ z' = ((5:Int).emod 16).toNat ∧
            y' = (7:Int).toNat) →
        rt2.SkyLight x' z' y' = zeroRootTag.SkyLight x' z' y') ∧
      (∀ c', c' ≠ ((3:Int).fdiv 16, (5:Int).fdiv 16) →
        lookupChunk w2 c' = lookupChunk skyWorld c')) ∧
    setSkylightAt parseNever skyWorld 3 200 5 9
      = Except.ok (false, skyWorld) :=
  ⟨⟨by norm_num, by norm_num, by decide, by norm_num⟩,
   ((setSkylightAt_spec parseNever skyWorld 3 7 5 9 skyChunk zeroRootTag [2]
       rfl rfl rfl).2 (by norm_num) (by norm_num)).1 (by decide),
   (setSkylightAt_spec parseNever skyWorld 3 200 5 9 skyChunk zeroRootTag [2]
       rfl rfl rfl).1 (by norm_num)⟩

/-! ### Light-pass boundedness (C3) -/

/-- A clamped newlight value is a valid light value. -/
theorem clampNewlight_le (v : Nat) : clampNewlight v ≤ 15 := by
  unfold clampNewlight
  split <;> omega

/-- A clamped-max slice assignment keeps a bounded array bounded. -/
theorem relaxUpdate_bounded (a : Arr3) (cond : Nat → Nat → Nat → Bool)
    (nl : Nat → Nat → Nat → Nat) (h : ∀ x z y, a x z y ≤ 15) :
    ∀ x z y, relaxUpdate a cond nl x z y ≤ 15 := by
  intro x z y
  unfold relaxUpdate
  split
  · exact max_le (h x z y) (clampNewlight_le _)
  · exact h x z y

/-- Reading any (possibly absent) neighbor of a bounded grid is bounded. -/
theorem nbrLight_bounded (g : LightGrid) (n : Int × Int)
    (h : BoundedGrid g) : ∀ x z y, nbrLight g n x z y ≤ 15 := by
  intro x z y
  unfold nbrLight
  split
  · exact h.1 n x z y
  · exact h.2 x z y

/-- Writing a bounded array into a bounded grid keeps it bounded. -/
theorem setLight_bounded (g : LightGrid) (n : Int × Int) (a : Arr3)
    (hg : BoundedGrid g) (ha : ∀ x z y, a x z y ≤ 15) :
    BoundedGrid (setLight g n a) := by
  unfold setLight
  split
  · refine ⟨fun c x z y => ?_, hg.2⟩
    by_cases hc : c = n
    · simp only [hc, if_pos rfl]
      exact ha x z y
    · simp only [if_neg hc]
      exact hg.1 c x z y
  · exact ⟨hg.1, ha⟩

/-- One merge step of the relaxation keeps the grid bounded, whatever the
newlight expression computes. -/
theorem relaxStep_bounded (g : LightGrid) (tgt : Int × Int)
    (cond : Nat → Nat → Nat → Bool)
    (nl : LightGrid → Nat → Nat → Nat → Nat) (hg : BoundedGrid g) :
    BoundedGrid (relaxStep g tgt cond nl) :=
  setLight_bounded _ _ _ hg
    (relaxUpdate_bounded _ _ _ (nbrLight_bounded _ _ hg))

/-- Resetting the zero chunk's buffer keeps the grid bounded. -/
theorem resetZero_bounded (g : LightGrid) (hg : BoundedGrid g) :
    BoundedGrid (resetZero g) :=
  ⟨hg.1, fun _ _ _ => Nat.zero_le 15⟩

/-- The per-chunk body of a relaxation pass keeps the grid bounded. -/
theorem relaxChunk_bounded (la : Nat → Nat) (g : LightGrid) (c : Int × Int)
    (hg : BoundedGrid g) : BoundedGrid (relaxChunk la g c) := by
  show BoundedGrid (resetZero _)
  apply resetZero_bounded
  apply relaxStep_bounded
  apply relaxStep_bounded
  apply resetZero_bounded
  apply relaxStep_bounded
  apply relaxStep_bounded
  apply relaxStep_bounded
  apply relaxStep_bounded
  apply relaxStep_bounded
  apply relaxStep_bounded
  apply resetZero_bounded
  apply relaxStep_bounded
  apply relaxStep_bounded
  apply relaxStep_bounded
  apply relaxStep_bounded
  apply relaxStep_bounded
  apply relaxStep_bounded
  exact hg

/-- C3: if every light cell of every chunk (and the zero chunk's shared
buffer) holds a valid 4-bit value when a relaxation pass starts, then after
the pass every cell is still between 0 and 15 inclusive — every slice
assignment merges by `max` against a newlight that is zeroed whenever the
uint8 subtraction left the 0..15 range, so no cell ever exceeds 15 and (the
arrays being unsigned) none is ever negative. -/
theorem generateLights_pass_bounded (la : Nat → Nat)
    (cs : List (Int × Int)) (g : LightGrid) (hg : BoundedGrid g) :
    (∀ c x z y, 0 ≤ (relaxPass la g cs).light c x z y ∧
      (relaxPass la g cs).light c x z y ≤ 15) ∧
    (∀ x z y, 0 ≤ (relaxPass la g cs).zeroBuf x z y ∧
      (relaxPass la g cs).zeroBuf x z y ≤ 15) := by
  have h : BoundedGrid (relaxPass la g cs) := by
    unfold relaxPass
    induction cs generalizing g with
    | nil => exact hg
    | cons hd tl ih => exact ih (relaxChunk la g hd) (relaxChunk_bounded la g hd hg)
  exact ⟨fun c x z y => ⟨Nat.zero_le _, h.1 c x z y⟩,
    fun x z y => ⟨Nat.zero_le _, h.2 x z y⟩⟩

/-- Witness for C3: one pass over a single chunk of an all-zero grid. -/
theorem generateLights_pass_bounded_witness :
    BoundedGrid ⟨fun _ _ _ _ => 0, fun _ _ _ _ => 0, fun _ => true,
        fun _ _ _ => 0⟩ ∧
    (∀ c x z y,
      0 ≤ (relaxPass (fun b => b)
          ⟨fun _ _ _ _ => 0, fun _ _ _ _ => 0, fun _ => true,
            fun _ _ _ => 0⟩ [(0, 0)]).light c x z y ∧
      (relaxPass (fun b => b)
          ⟨fun _ _ _ _ => 0, fun _ _ _ _ => 0, fun _ => true,
            fun _ _ _ => 0⟩ [(0, 0)]).light c x z y ≤ 15) :=
  ⟨⟨fun _ _ _ _ => Nat.zero_le 15, fun _ _ _ => Nat.zero_le 15⟩,
   (generateLights_pass_bounded (fun b => b) [(0, 0)]
       ⟨fun _ _ _ _ => 0, fun _ _ _ _ => 0, fun _ => true, fun _ _ _ => 0⟩
       ⟨fun _ _ _ _ => Nat.zero_le 15, fun _ _ _ => Nat.zero_le 15⟩).1⟩

/-! ### The region slice iterator (C4) -/

/-- Membership in a Python-style integer range. -/
theorem mem_intRange {a b n : Int} : n ∈ intRange a b ↔ a ≤ n ∧ n < b := by
  unfold intRange
  simp only [List.mem_map, List.mem_range]
  constructor
  · rintro ⟨i, hi, rfl⟩
    omega
  · intro h
    exact ⟨(n - a).toNat, by omega, by omega⟩

/-- Length of a Python-style integer range. -/
theorem length_intRange (a b : Int) : (intRange a b).length = (b - a).toNat := by
  unfold intRange
  rw [List.length_map, List.length_range]

/-- Length of a `flatMap` whose pieces all have the same length. -/
theorem length_flatMap_const {α β : Type} (l : List α) (f : α → List β)
    (m : Nat) (h : ∀ x ∈ l, (f x).length = m) :
    (l.flatMap f).length = l.length * m := by
  induction l with
  | nil => simp
  | cons hd tl ih =>
    rw [List.flatMap_cons, List.length_append,
      h hd (List.mem_cons_self hd tl),
      ih (fun x hx => h x (List.mem_cons_of_mem hd hx)), List.length_cons]
    ring

/-- A `filterMap` by an everywhere-true test is a `map`. -/
theorem filterMap_if_eq_map {α β : Type} (l : List α) (p : α → Bool)
    (f : α → β) (h : ∀ x ∈ l, p x = true) :
    l.filterMap (fun x => if p x then some (f x) else none) = l.map f := by
  induction l with
  | nil => rfl
  | cons hd tl ih =>
    have hp : p hd = true := h hd (List.mem_cons_self hd tl)
    have ih1 := ih (fun x hx => h x (List.mem_cons_of_mem hd hx))
    simp [List.filterMap_cons, hp, ih1]

/-- `flatMap` respects pointwise equality on members. -/
theorem flatMap_congr_mem {α β : Type} (l : List α) (f g : α → List β)
    (h : ∀ x ∈ l, f x = g x) : l.flatMap f = l.flatMap g := by
  induction l with
  | nil => rfl
  | cons hd tl ih =>
    rw [List.flatMap_cons, List.flatMap_cons, h hd (List.mem_cons_self hd tl),
      ih (fun x hx => h x (List.mem_cons_of_mem hd hx))]

/-- C4: over a region whose X/Z footprint exactly covers N×M chunks
(chunk-aligned origin, sizes `16N`/`16M`) that are all present, the slice
iterator yields exactly `N*M` triples; every triple's `sliceY` spans the full
requested vertical range `[miny, maxy)`; the relative offsets tile the
region's footprint exactly once (each point of the footprint is covered by
exactly one triple); and — for any region and any store — a yielded triple's
chunk is always present, so an absent coordinate yields nothing and no
error. -/
theorem getChunkSlices_full_cover (present : Int × Int → Bool)
    (box : BoundingBox) (a bz : Int) (N M : Nat)
    (ha : box.originX = 16 * a) (hbz : box.originZ = 16 * bz)
    (hsx : box.sizeX = 16 * (N : Int)) (hsz : box.sizeZ = 16 * (M : Int))
    (hpres : ∀ cx cz : Int, a ≤ cx → cx < a + (N : Int) → bz ≤ cz →
      cz < bz + (M : Int) → present (cx, cz) = true) :
    (getChunkSlices present box).length = N * M ∧
    (∀ s, s ∈ getChunkSlices present box →
      s.sliceY = (box.getMiny, box.getMaxy)) ∧
    (∀ u w : Int, 0 ≤ u → u < 16 * (N : Int) → 0 ≤ w → w < 16 * (M : Int) →
      ∃! s : ChunkSlice, s ∈ getChunkSlices present box ∧
        s.offset.1 ≤ u ∧ u < s.offset.1 + (s.sliceX.2 - s.sliceX.1) ∧
        s.offset.2.2 ≤ w ∧ w < s.offset.2.2 + (s.sliceZ.2 - s.sliceZ.1)) ∧
    (∀ (present' : Int × Int → Bool) (box' : BoundingBox) (s : ChunkSlice),
      s ∈ getChunkSlices present' box' → present' s.coord = true) := by
  have hmincx : box.getMincx = a := by
    unfold BoundingBox.getMincx
    rw [ha, Int.fdiv_eq_ediv _ (by norm_num)]
    omega
  have hmincz : box.getMincz = bz := by
    unfold BoundingBox.getMincz
    rw [hbz, Int.fdiv_eq_ediv _ (by norm_num)]
    omega
  have hmaxcx : box.getMaxcx = a + (N : Int) := by
    unfold BoundingBox.getMaxcx
    rw [ha, hsx, Int.fdiv_eq_ediv _ (by norm_num)]
    omega
  have hmaxcz : box.getMaxcz = bz + (M : Int) := by
    unfold BoundingBox.getMaxcz
    rw [hbz, hsz, Int.fdiv_eq_ediv _ (by norm_num)]
    omega
  have hxoff : box.getMinx - box.getMincx * 16 = 0 := by
    rw [hmincx]
    unfold BoundingBox.getMinx
    rw [ha]
    ring
  have hzoff : box.getMinz - box.getMincz * 16 = 0 := by
    rw [hmincz]
    unfold BoundingBox.getMinz
    rw [hbz]
    ring
  have hXoff : box.getMaxx - box.getMaxcx * 16 + 16 = 16 := by
    rw [hmaxcx]
    unfold BoundingBox.getMaxx
    rw [ha, hsx]
    ring
  have hZoff : box.getMaxz - box.getMaxcz * 16 + 16 = 16 := by
    rw [hmaxcz]
    unfold BoundingBox.getMaxz
    rw [hbz, hsz]
    ring
  have hexp : getChunkSlices present box
      = (intRange a (a + (N : Int))).flatMap (fun cx =>
          (intRange bz (bz + (M : Int))).map (fun cz =>
            ⟨(cx, cz), (0, 16), (0, 16), (box.getMiny, box.getMaxy),
              (16 * (cx - a), 0, 16 * (cz - bz))⟩)) := by
    unfold getChunkSlices
    rw [hxoff, hzoff, hXoff, hZoff, hmincx, hmincz, hmaxcx, hmaxcz]
    simp only [ite_self]
    apply flatMap_congr_mem
    intro cx hcx
    refine Eq.trans
      (filterMap_if_eq_map _ (fun cz => present (cx, cz)) _ ?_) ?_
    · intro cz hcz
      obtain ⟨hcx1, hcx2⟩ := mem_intRange.mp hcx
      obtain ⟨hcz1, hcz2⟩ := mem_intRange.mp hcz
      exact hpres cx cz hcx1 hcx2 hcz1 hcz2
    · apply List.map_congr_left
      intro cz hcz
      have e1 : 0 + cx * 16 - box.getMinx = 16 * (cx - a) := by
        unfold BoundingBox.getMinx
        rw [ha]
        ring
      have e2 : 0 + cz * 16 - box.getMinz = 16 * (cz - bz) := by
        unfold BoundingBox.getMinz
        rw [hbz]
        ring
      rw [e1, e2]
  refine ⟨?_, ?_, ?_, ?_⟩
  · rw [hexp]
    rw [length_flatMap_const _ _ M
      (fun x _ => by rw [List.length_map, length_intRange]; omega)]
    rw [length_intRange]
    have : ((a + (N : Int)) - a).toNat = N := by omega
    rw [this]
  · intro s hs
    rw [hexp] at hs
    obtain ⟨cx, hcx, hs2⟩ := List.mem_flatMap.mp hs
    obtain ⟨cz, hcz, rfl⟩ := List.mem_map.mp hs2
    rfl
  · intro u w hu0 hu1 hw0 hw1
    refine ⟨⟨(a + ((u.toNat / 16 : Nat) : Int),
        bz + ((w.toNat / 16 : Nat) : Int)), (0, 16), (0, 16),
        (box.getMiny, box.getMaxy),
        (16 * ((a + ((u.toNat / 16 : Nat) : Int)) - a), 0,
          16 * ((bz + ((w.toNat / 16 : Nat) : Int)) - bz))⟩,
      ⟨?_, ?_, ?_, ?_, ?_⟩, ?_⟩
    · rw [hexp]
      apply List.mem_flatMap.mpr
      refine ⟨a + ((u.toNat / 16 : Nat) : Int),
        mem_intRange.mpr ⟨by omega, by omega⟩, ?_⟩
      apply List.mem_map.mpr
      exact ⟨bz + ((w.toNat / 16 : Nat) : Int),
        mem_intRange.mpr ⟨by omega, by omega⟩, rfl⟩
    · dsimp only
      omega
    · dsimp only
      omega
    · dsimp only
      omega
    · dsimp only
      omega
    · rintro s' ⟨hmem', hc1, hc2, hc3, hc4⟩
      rw [hexp] at hmem'
      obtain ⟨cx, hcx, hmem2⟩ := List.mem_flatMap.mp hmem'
      obtain ⟨cz, hcz, rfl⟩ := List.mem_map.mp hmem2
      obtain ⟨hcx1, hcx2⟩ := mem_intRange.mp hcx
      obtain ⟨hcz1, hcz2⟩ := mem_intRange.mp hcz
      dsimp only at hc1 hc2 hc3 hc4
      have ecx : cx = a + ((u.toNat / 16 : Nat) : Int) := by omega
      have ecz : cz = bz + ((w.toNat / 16 : Nat) : Int) := by omega
      subst ecx
      subst ecz
      rfl
  · intro present' box' s hs
    unfold getChunkSlices at hs
    obtain ⟨cx, hcx, hs2⟩ := List.mem_flatMap.mp hs
    obtain ⟨cz, hcz, heq⟩ := List.mem_filterMap.mp hs2
    by_cases hp : present' (cx, cz) = true
    · rw [if_pos hp] at heq
      obtain rfl := Option.some.inj heq
      exact hp
    · rw [if_neg hp] at heq
      exact Option.noConfusion heq

/-- Witness for C4: a 2×1-chunk aligned box over an everywhere-present
store. -/
theorem getChunkSlices_full_cover_witness :
    ((⟨0, 0, 0, 32, 5, 16⟩ : BoundingBox).originX = 16 * 0 ∧
      (⟨0, 0, 0, 32, 5, 16⟩ : BoundingBox).sizeX = 16 * ((2 : Nat) : Int)) ∧
    (getChunkSlices (fun _ => true) ⟨0, 0, 0, 32, 5, 16⟩).length = 2 * 1 :=
  ⟨⟨by decide, by decide⟩,
   (getChunkSlices_full_cover (fun _ => true) ⟨0, 0, 0, 32, 5, 16⟩ 0 0 2 1
       (by decide) (by decide) (by decide) (by decide)
       (fun _ _ _ _ _ _ => rfl)).1⟩

end PyMCLevel
